import Mathlib

/-!
Verification of the QUIC listener core of py-libp2p
(src/libp2p/transport/quic/listener.py), as a shallow embedding.

Bytes are modelled as `Nat`, byte strings as `List Nat`, Python dicts as
association lists (`alookup` / `ainsert` / `aerase` mirror `d.get`,
`d[k] = v`, `d.pop(k, None)`).  The external QUIC engine, the security
manager and the connection wrapper are collaborators outside this file's
source; their behaviour (which events they deliver, whether their calls
raise) is supplied to each step as an explicit oracle.  Connection-id
generation (`secrets.token_bytes(8)`) is modelled by a step parameter
required to be fresh.
-/

set_option linter.unusedVariables false

/-! ## Association-list maps (Python dict semantics for the observed operations) -/

def alookup {α β : Type} [DecidableEq α] : List (α × β) → α → Option β
  | [], _ => none
  | p :: rest, k => if p.1 = k then some p.2 else alookup rest k

def aerase {α β : Type} [DecidableEq α] (m : List (α × β)) (k : α) : List (α × β) :=
  m.filter (fun p => decide (p.1 ≠ k))

def ainsert {α β : Type} [DecidableEq α] (m : List (α × β)) (k : α) (v : β) : List (α × β) :=
  (k, v) :: aerase m k

/-! ## Packet parser (`parse_quic_packet`, `_decode_varint`)

Translated check-for-check from the source: every `if len(data) < ...:
return None` guard appears as the corresponding `if`-test on `d.length`,
indexing `data[i]` is `d.getD i 0` (always guarded in the source), and the
slice `data[i : i + n]` is `sliceAt d i n`. -/

def sliceAt (d : List Nat) (i n : Nat) : List Nat := (d.drop i).take n

def initialPacketBytes (b0 : Nat) (v4 dcid scid rest : List Nat) : List Nat :=
  b0 :: (v4 ++ (dcid.length :: (dcid ++ (scid.length :: (scid ++ rest)))))

structure QUICPacketInfo where
  version : Nat
  destination_cid : List Nat
  source_cid : List Nat
  packet_type : Nat
  token : List Nat
  deriving Repr, DecidableEq

def decode_varint (d : List Nat) : Nat × Nat :=
  if d.length < 1 then (0, 0)
  else
    if (d.getD 0 0 &&& 0xC0) >>> 6 = 0 then (d.getD 0 0 &&& 0x3F, 1)
    else if (d.getD 0 0 &&& 0xC0) >>> 6 = 1 then
      if d.length < 2 then (0, 0)
      else (((d.getD 0 0 &&& 0x3F) <<< 8) ||| d.getD 1 0, 2)
    else if (d.getD 0 0 &&& 0xC0) >>> 6 = 2 then
      if d.length < 4 then (0, 0)
      else (((d.getD 0 0 &&& 0x3F) <<< 24) ||| (d.getD 1 0 <<< 16) |||
              (d.getD 2 0 <<< 8) ||| d.getD 3 0, 4)
    else
      if d.length < 8 then (0, 0)
      else (((d.getD 0 0 &&& 0x3F) <<< 56) ||| (d.getD 1 0 <<< 48) |||
              (d.getD 2 0 <<< 40) ||| (d.getD 3 0 <<< 32) ||| (d.getD 4 0 <<< 24) |||
              (d.getD 5 0 <<< 16) ||| (d.getD 6 0 <<< 8) ||| d.getD 7 0, 8)

def be32At (d : List Nat) (i : Nat) : Nat :=
  (d.getD i 0 <<< 24) ||| (d.getD (i + 1) 0 <<< 16) ||| (d.getD (i + 2) 0 <<< 8) |||
    d.getD (i + 3) 0

def parse_quic_packet (d : List Nat) : Option QUICPacketInfo :=
  if d.length < 1 then none
  else if d.getD 0 0 &&& 0x80 = 0 then none
  else if d.length < 1 + 4 then none
  else if d.length < 5 + 1 then none
  else if d.length < 6 + d.getD 5 0 then none
  else if d.length < 6 + d.getD 5 0 + 1 then none
  else if d.length < 7 + d.getD 5 0 + d.getD (6 + d.getD 5 0) 0 then none
  else
    if (d.getD 0 0 &&& 0x30) >>> 4 = 0 then
      if d.length < 7 + d.getD 5 0 + d.getD (6 + d.getD 5 0) 0 + 1 then none
      else
        if d.length <
            7 + d.getD 5 0 + d.getD (6 + d.getD 5 0) 0 +
              (decode_varint (d.drop (7 + d.getD 5 0 + d.getD (6 + d.getD 5 0) 0))).2 +
              (decode_varint (d.drop (7 + d.getD 5 0 + d.getD (6 + d.getD 5 0) 0))).1 then
          none
        else
          some ⟨be32At d 1, sliceAt d 6 (d.getD 5 0),
            sliceAt d (7 + d.getD 5 0) (d.getD (6 + d.getD 5 0) 0),
            (d.getD 0 0 &&& 0x30) >>> 4,
            sliceAt d
              (7 + d.getD 5 0 + d.getD (6 + d.getD 5 0) 0 +
                (decode_varint (d.drop (7 + d.getD 5 0 + d.getD (6 + d.getD 5 0) 0))).2)
              (decode_varint (d.drop (7 + d.getD 5 0 + d.getD (6 + d.getD 5 0) 0))).1⟩
    else
      some ⟨be32At d 1, sliceAt d 6 (d.getD 5 0),
        sliceAt d (7 + d.getD 5 0) (d.getD (6 + d.getD 5 0) 0),
        (d.getD 0 0 &&& 0x30) >>> 4, []⟩

/-! ## Version negotiation (`_send_version_negotiation`)

`be32 v` is `struct.pack("!I", v)`; `vnPacket` appends the same bytes the
source appends to its `bytearray`.  `sortedVersions` is
`sorted(self._supported_versions)` — the supported-version container is a
Python `set`, modelled as a list that is deduplicated before sorting. -/

def be32 (v : Nat) : List Nat :=
  [v >>> 24 % 256, v >>> 16 % 256, v >>> 8 % 256, v % 256]

def sortedVersions (l : List Nat) : List Nat :=
  List.insertionSort (· ≤ ·) l.dedup

def vnPacket (source_cid : List Nat) (supported : List Nat) : List Nat :=
  [0x80 ||| 0x70] ++ (be32 0 ++ ([source_cid.length] ++ (source_cid ++ ([0] ++
    (sortedVersions supported).flatMap be32))))

/-! ## Listener state

`CoreState` holds the four routing maps and the statistics counters that
datagram processing touches; `ListenerConfig` holds the configuration the
listener derives at construction (`_supported_versions`, whether a
`security_manager` was supplied).  Sessions are keyed exactly as in the
source: `connections` and `pending` by destination cid, plus the
`addrToCid` / `cidToAddr` pair. -/

abbrev Cid := List Nat

abbrev Addr := String × Nat

structure ListenerConfig where
  supportedVersions : List Nat
  hasSecurity : Bool
  deriving Repr, DecidableEq

structure CoreState where
  connections : List (Cid × Unit)
  pending : List (Cid × Unit)
  addrToCid : List (Addr × Cid)
  cidToAddr : List (Cid × Addr)
  statsAccepted : Nat
  statsRejected : Nat
  statsVN : Nat
  statsPackets : Nat
  statsBytes : Nat
  deriving Repr, DecidableEq

def initCore : CoreState := ⟨[], [], [], [], 0, 0, 0, 0, 0⟩

/-! ## Oracles for the external collaborators

The QUIC engine, the wrapper constructor and the security verifier are
outside the listener source.  Each datagram step takes an oracle saying
what those calls did: which events `next_event` yielded, and which external
calls raised.  `PromoteOracle` drives one `_promote_pending_connection`
call, `EngineOracle` one receive/drain/transmit round, `NewConnOracle` one
`_handle_new_connection` call (including the generated destination cid). -/

structure PromoteOracle where
  ctorRaises : Bool
  securityOk : Bool
  deriving Repr, DecidableEq

inductive QuicEvent where
  | connectionTerminated
  | handshakeCompleted (po : PromoteOracle)
  | streamDataReceived
  | streamReset
  deriving Repr, DecidableEq

structure EngineOracle where
  recvRaises : Bool
  events : List QuicEvent
  fetchRaises : Bool
  deriving Repr, DecidableEq

structure NewConnOracle where
  configFound : Bool
  setupRaises : Bool
  newCid : Cid
  engine : EngineOracle
  deriving Repr, DecidableEq

structure PacketOracle where
  routeRaises : Bool
  engine : EngineOracle
  newConn : NewConnOracle
  deriving Repr, DecidableEq

structure PromoteOut where
  handlerStarted : Bool
  connCloseCalled : Bool
  deriving Repr, DecidableEq

/-! ## Session teardown (`_remove_connection`, `_remove_pending_connection`,
`_remove_connection_by_addr`) -/

def removeConnection (c : CoreState) (cid : Cid) : CoreState :=
  match alookup c.cidToAddr cid with
  | none =>
      { c with connections := aerase c.connections cid,
               cidToAddr := aerase c.cidToAddr cid }
  | some a =>
      { c with connections := aerase c.connections cid,
               cidToAddr := aerase c.cidToAddr cid,
               addrToCid := aerase c.addrToCid a }

def removePendingConnection (c : CoreState) (cid : Cid) : CoreState :=
  match alookup c.cidToAddr cid with
  | none =>
      { c with pending := aerase c.pending cid,
               cidToAddr := aerase c.cidToAddr cid }
  | some a =>
      { c with pending := aerase c.pending cid,
               cidToAddr := aerase c.cidToAddr cid,
               addrToCid := aerase c.addrToCid a }

def removeConnectionByAddr (c : CoreState) (a : Addr) : CoreState :=
  match alookup c.addrToCid a with
  | some cid => removeConnection c cid
  | none => c

/-! ## Promotion (`_promote_pending_connection`)

The source pops the pending entry, builds the wrapper (external; may
raise), stores it in `_connections`, then — if a security manager is
configured — verifies the peer identity.  On verification failure it
closes the connection and returns; the outer `except` branch is only
reached by a raise before that, and it removes the connection and bumps
`connections_rejected`.  On success it starts the handler and bumps
`connections_accepted`. -/

def promotePendingConnection (cfg : ListenerConfig) (c : CoreState) (addr : Addr)
    (cid : Cid) (po : PromoteOracle) : CoreState × PromoteOut :=
  if po.ctorRaises then
    ({ removeConnection { c with pending := aerase c.pending cid } cid with
        statsRejected := c.statsRejected + 1 }, ⟨false, false⟩)
  else if cfg.hasSecurity && !po.securityOk then
    ({ c with pending := aerase c.pending cid,
              connections := ainsert c.connections cid () }, ⟨false, true⟩)
  else
    ({ c with pending := aerase c.pending cid,
              connections := ainsert c.connections cid (),
              statsAccepted := c.statsAccepted + 1 }, ⟨true, false⟩)

/-! ## Event drain (`_process_quic_events`)

`ConnectionTerminated` removes the connection and breaks out of the drain
loop; `HandshakeCompleted` promotes; stream events only forward to the
established wrapper and do not touch the routing state. -/

def processQuicEvents (cfg : ListenerConfig) (addr : Addr) (cid : Cid) :
    CoreState → List QuicEvent → CoreState
  | c, [] => c
  | c, QuicEvent.connectionTerminated :: _ => removeConnection c cid
  | c, QuicEvent.handshakeCompleted po :: rest =>
      processQuicEvents cfg addr cid (promotePendingConnection cfg c addr cid po).1 rest
  | c, QuicEvent.streamDataReceived :: rest => processQuicEvents cfg addr cid c rest
  | c, QuicEvent.streamReset :: rest => processQuicEvents cfg addr cid c rest

def hasTerminated : List QuicEvent → Bool
  | [] => false
  | QuicEvent.connectionTerminated :: _ => true
  | _ :: rest => hasTerminated rest

/-! ## Per-session handlers

`_transmit_for_connection` swallows every exception internally, so
transmission never changes the routing state; only `receive_datagram` and
`next_event` can raise out of `_handle_pending_connection`, whose `except`
branch calls `_remove_pending_connection`.  `_route_to_connection`'s
`except` branch calls `_remove_connection_by_addr` with the packet's
source address. -/

def handlePendingConnection (cfg : ListenerConfig) (c : CoreState) (addr : Addr)
    (cid : Cid) (o : EngineOracle) : CoreState :=
  if o.recvRaises then removePendingConnection c cid
  else if o.fetchRaises && !hasTerminated o.events then
    removePendingConnection (processQuicEvents cfg addr cid c o.events) cid
  else processQuicEvents cfg addr cid c o.events

def routeToConnection (c : CoreState) (addr : Addr) (routeRaises : Bool) : CoreState :=
  if routeRaises then removeConnectionByAddr c addr else c

def sendVersionNegotiation (cfg : ListenerConfig) (c : CoreState) (scid : Cid) :
    CoreState × List (List Nat) :=
  ({ c with statsVN := c.statsVN + 1 }, [vnPacket scid cfg.supportedVersions])

/-! ## New connections (`_handle_new_connection`)

The config lookup (by protocol wire format) and the server-config /
`QuicConnection` construction happen before the three mappings are
stored; a raise after that point is caught by this handler's own `except`
branch, which only logs and bumps `connections_rejected` — it does not
remove the session it just created. -/

def handleNewEngine (cfg : ListenerConfig) (addr : Addr) (cid : Cid) (e : EngineOracle)
    (c1 : CoreState) : CoreState × List (List Nat) :=
  if e.recvRaises then ({ c1 with statsRejected := c1.statsRejected + 1 }, [])
  else if e.fetchRaises && !hasTerminated e.events then
    ({ processQuicEvents cfg addr cid c1 e.events with
        statsRejected := (processQuicEvents cfg addr cid c1 e.events).statsRejected + 1 }, [])
  else (processQuicEvents cfg addr cid c1 e.events, [])

def handleNewConnection (cfg : ListenerConfig) (c : CoreState) (addr : Addr)
    (scid : Cid) (o : NewConnOracle) : CoreState × List (List Nat) :=
  if o.configFound = false then sendVersionNegotiation cfg c scid
  else if o.setupRaises then ({ c with statsRejected := c.statsRejected + 1 }, [])
  else
    handleNewEngine cfg addr o.newCid o.engine
      { c with pending := ainsert c.pending o.newCid (),
               addrToCid := ainsert c.addrToCid addr o.newCid,
               cidToAddr := ainsert c.cidToAddr o.newCid addr }

/-! ## Datagram dispatch (`_process_packet`, `_handle_short_header_packet`)

`bumpStats` is the two counter increments done before parsing.  The
short-header fallback mirrors `if dest_cid:` — Python truthiness, so an
empty-bytes cid behaves like a missing mapping. -/

def bumpStats (c : CoreState) (n : Nat) : CoreState :=
  { c with statsPackets := c.statsPackets + 1, statsBytes := c.statsBytes + n }

def handleShortHeaderPacket (cfg : ListenerConfig) (c : CoreState) (addr : Addr)
    (o : PacketOracle) : CoreState :=
  match alookup c.addrToCid addr with
  | some cid =>
      if cid = [] then c
      else if (alookup c.connections cid).isSome then routeToConnection c addr o.routeRaises
      else if (alookup c.pending cid).isSome then
        handlePendingConnection cfg c addr cid o.engine
      else c
  | none => c

def processByAddr (cfg : ListenerConfig) (c0 : CoreState) (pi : QUICPacketInfo)
    (addr : Addr) (ecid : Cid) (o : PacketOracle) : CoreState × List (List Nat) :=
  if (alookup c0.pending ecid).isSome then
    (handlePendingConnection cfg c0 addr ecid o.engine, [])
  else if (alookup c0.connections ecid).isSome then
    (routeToConnection c0 addr o.routeRaises, [])
  else
    if pi.packet_type = 0 then
      handleNewConnection cfg { c0 with addrToCid := aerase c0.addrToCid addr } addr
        pi.source_cid o.newConn
    else ({ c0 with addrToCid := aerase c0.addrToCid addr }, [])

def processParsed (cfg : ListenerConfig) (c0 : CoreState) (pi : QUICPacketInfo)
    (addr : Addr) (o : PacketOracle) : CoreState × List (List Nat) :=
  if pi.version = 0 then (c0, [])
  else if pi.version ∈ cfg.supportedVersions then
    if (alookup c0.connections pi.destination_cid).isSome then
      (routeToConnection c0 addr o.routeRaises, [])
    else if (alookup c0.pending pi.destination_cid).isSome then
      (handlePendingConnection cfg c0 addr pi.destination_cid o.engine, [])
    else
      match alookup c0.addrToCid addr with
      | some ecid => processByAddr cfg c0 pi addr ecid o
      | none =>
          if pi.packet_type = 0 then handleNewConnection cfg c0 addr pi.source_cid o.newConn
          else (c0, [])
  else sendVersionNegotiation cfg c0 pi.source_cid

def processPacket (cfg : ListenerConfig) (c : CoreState) (data : List Nat) (addr : Addr)
    (o : PacketOracle) : CoreState × List (List Nat) :=
  match parse_quic_packet data with
  | some pi => processParsed cfg (bumpStats c data.length) pi addr o
  | none => (handleShortHeaderPacket cfg (bumpStats c data.length) addr o, [])

/-! ## Listener lifecycle (`listen`, `close`, `is_listening`) -/

structure ListenerState where
  cfg : ListenerConfig
  core : CoreState
  closed : Bool
  listening : Bool
  deriving Repr, DecidableEq

def closeCore (c : CoreState) : CoreState :=
  ((( c.connections.map Prod.fst).foldl removeConnection c).pending.map Prod.fst).foldl
    removePendingConnection ((c.connections.map Prod.fst).foldl removeConnection c)

def closeListener (st : ListenerState) : ListenerState :=
  if st.closed then st
  else { st with closed := true, listening := false, core := closeCore st.core }

inductive ListenOutcome where
  | ok
  | invalidAddr
  | bindFail
  deriving Repr, DecidableEq

def listenStep (st : ListenerState) (oc : ListenOutcome) : ListenerState :=
  if st.listening then st
  else
    match oc with
    | ListenOutcome.invalidAddr => st
    | ListenOutcome.bindFail => closeListener st
    | ListenOutcome.ok => { st with listening := true }

inductive SysStep where
  | datagram (data : List Nat) (addr : Addr) (o : PacketOracle)
  | closeCall
  | listenCall (oc : ListenOutcome)

def applySysStep (st : ListenerState) : SysStep → ListenerState
  | SysStep.datagram d a o => { st with core := (processPacket st.cfg st.core d a o).1 }
  | SysStep.closeCall => closeListener st
  | SysStep.listenCall oc => listenStep st oc

def applySysSteps (st : ListenerState) (l : List SysStep) : ListenerState :=
  l.foldl applySysStep st

def isListening (st : ListenerState) : Bool :=
  st.listening && !st.closed

/-! ## Reachability by datagram processing

`FreshCid` models `secrets.token_bytes(8)`: the generated cid for a new
connection does not collide with any live cid. -/

def FreshCid (c : CoreState) (cid : Cid) : Prop :=
  alookup c.cidToAddr cid = none ∧ alookup c.pending cid = none ∧
    alookup c.connections cid = none

inductive DatagramReachable (cfg : ListenerConfig) : CoreState → Prop where
  | base : DatagramReachable cfg initCore
  | step (c : CoreState) (data : List Nat) (addr : Addr) (o : PacketOracle) :
      DatagramReachable cfg c → FreshCid c o.newConn.newCid →
      DatagramReachable cfg (processPacket cfg c data addr o).1

/-! ## The routing invariant

`sessionFor` says a cid is live on one of the two session sides.  `InvAt`
is the routing-consistency invariant: `addrToCid` and `cidToAddr` are
mutual inverses, every address mapping points at a live session, and both
maps have duplicate-free key lists (they are built only by `ainsert` /
`aerase`). -/

def sessionFor (c : CoreState) (cid : Cid) : Bool :=
  (alookup c.pending cid).isSome || (alookup c.connections cid).isSome

def InvAt (c : CoreState) : Prop :=
  (∀ p ∈ c.addrToCid, alookup c.cidToAddr p.2 = some p.1) ∧
  (∀ q ∈ c.cidToAddr, alookup c.addrToCid q.2 = some q.1) ∧
  (∀ p ∈ c.addrToCid, sessionFor c p.2 = true) ∧
  (c.addrToCid.map Prod.fst).Nodup ∧
  (c.cidToAddr.map Prod.fst).Nodup

/-! ## Concrete fixtures used by witnesses and counterexamples -/

def addr0 : Addr := ("h", 1)

def cfg0 : ListenerConfig := ⟨[1], false⟩

def cfgSec : ListenerConfig := ⟨[1], true⟩

def benignEngine : EngineOracle := ⟨false, [], false⟩

def benignNew : NewConnOracle := ⟨true, false, [7], benignEngine⟩

def oracle0 : PacketOracle := ⟨false, benignEngine, benignNew⟩

def dgramInit : List Nat := [0x80, 0, 0, 0, 1, 0, 0, 0]

def dgramCid7 : List Nat := [0x80, 0, 0, 0, 1, 1, 7, 0, 0]

def dgramV2 : List Nat := [0x80, 0, 0, 0, 2, 0, 3, 9, 9, 9, 0]

def oracleTerm : PacketOracle :=
  ⟨false, ⟨false, [QuicEvent.connectionTerminated], false⟩, benignNew⟩

def oraclePromFail : PacketOracle :=
  ⟨false, ⟨false, [QuicEvent.handshakeCompleted ⟨false, false⟩], false⟩, benignNew⟩

def oracleRecvRaise : PacketOracle :=
  ⟨false, benignEngine, ⟨true, false, [7], ⟨true, [], false⟩⟩⟩

def corePend7 : CoreState :=
  ⟨[], [([7], ())], [(addr0, [7])], [([7], addr0)], 0, 0, 0, 0, 0⟩

def engTerm : EngineOracle := ⟨false, [QuicEvent.connectionTerminated], false⟩

/-! ## Frame predicates for the three `_promote_pending_connection` paths

Each spells out, lookup by lookup, what one promotion path does to the
routing state and counters; `promotion_frame_amended` below proves them. -/

def PromoteSuccessFrame (cfg : ListenerConfig) (c : CoreState) (addr : Addr)
    (cid : Cid) : Prop :=
  alookup (promotePendingConnection cfg c addr cid ⟨false, true⟩).1.pending cid = none ∧
  (∀ k, k ≠ cid →
    alookup (promotePendingConnection cfg c addr cid ⟨false, true⟩).1.pending k =
      alookup c.pending k) ∧
  (alookup (promotePendingConnection cfg c addr cid ⟨false, true⟩).1.connections cid).isSome
    = true ∧
  (∀ k, k ≠ cid →
    alookup (promotePendingConnection cfg c addr cid ⟨false, true⟩).1.connections k =
      alookup c.connections k) ∧
  (promotePendingConnection cfg c addr cid ⟨false, true⟩).1.addrToCid = c.addrToCid ∧
  (promotePendingConnection cfg c addr cid ⟨false, true⟩).1.cidToAddr = c.cidToAddr ∧
  (promotePendingConnection cfg c addr cid ⟨false, true⟩).1.statsAccepted =
    c.statsAccepted + 1 ∧
  (promotePendingConnection cfg c addr cid ⟨false, true⟩).1.statsRejected =
    c.statsRejected ∧
  (promotePendingConnection cfg c addr cid ⟨false, true⟩).2.handlerStarted = true

def PromoteExnFrame (cfg : ListenerConfig) (c : CoreState) (addr : Addr)
    (cid : Cid) : Prop :=
  alookup (promotePendingConnection cfg c addr cid ⟨true, true⟩).1.pending cid = none ∧
  (∀ k, k ≠ cid →
    alookup (promotePendingConnection cfg c addr cid ⟨true, true⟩).1.pending k =
      alookup c.pending k) ∧
  alookup (promotePendingConnection cfg c addr cid ⟨true, true⟩).1.connections cid = none ∧
  (∀ k, k ≠ cid →
    alookup (promotePendingConnection cfg c addr cid ⟨true, true⟩).1.connections k =
      alookup c.connections k) ∧
  alookup (promotePendingConnection cfg c addr cid ⟨true, true⟩).1.cidToAddr cid = none ∧
  (∀ k, k ≠ cid →
    alookup (promotePendingConnection cfg c addr cid ⟨true, true⟩).1.cidToAddr k =
      alookup c.cidToAddr k) ∧
  (∀ a, alookup c.cidToAddr cid = some a →
    alookup (promotePendingConnection cfg c addr cid ⟨true, true⟩).1.addrToCid a = none) ∧
  (∀ a a', alookup c.cidToAddr cid = some a → a' ≠ a →
    alookup (promotePendingConnection cfg c addr cid ⟨true, true⟩).1.addrToCid a' =
      alookup c.addrToCid a') ∧
  (alookup c.cidToAddr cid = none →
    (promotePendingConnection cfg c addr cid ⟨true, true⟩).1.addrToCid = c.addrToCid) ∧
  (promotePendingConnection cfg c addr cid ⟨true, true⟩).1.statsRejected =
    c.statsRejected + 1 ∧
  (promotePendingConnection cfg c addr cid ⟨true, true⟩).1.statsAccepted = c.statsAccepted

def PromoteSecFailFrame (cfg : ListenerConfig) (c : CoreState) (addr : Addr)
    (cid : Cid) : Prop :=
  (alookup (promotePendingConnection cfg c addr cid ⟨false, false⟩).1.connections cid).isSome
    = true ∧
  alookup (promotePendingConnection cfg c addr cid ⟨false, false⟩).1.pending cid = none ∧
  (promotePendingConnection cfg c addr cid ⟨false, false⟩).1.addrToCid = c.addrToCid ∧
  (promotePendingConnection cfg c addr cid ⟨false, false⟩).1.cidToAddr = c.cidToAddr ∧
  (promotePendingConnection cfg c addr cid ⟨false, false⟩).1.statsAccepted =
    c.statsAccepted ∧
  (promotePendingConnection cfg c addr cid ⟨false, false⟩).1.statsRejected =
    c.statsRejected ∧
  (promotePendingConnection cfg c addr cid ⟨false, false⟩).2.handlerStarted = false ∧
  (promotePendingConnection cfg c addr cid ⟨false, false⟩).2.connCloseCalled = true

/-! # Theorems -/

/-! ## Association-list lemmas -/

theorem alookup_eq_some_mem {α β : Type} [DecidableEq α] {m : List (α × β)} {k : α} {v : β}
    (h : alookup m k = some v) : (k, v) ∈ m := by
  induction m with
  | nil => simp [alookup] at h
  | cons p rest ih =>
    rw [alookup] at h
    by_cases hk : p.1 = k
    · rw [if_pos hk] at h
      cases p
      cases h
      simp_all
    · rw [if_neg hk] at h
      exact List.mem_cons_of_mem _ (ih h)

theorem mem_aerase {α β : Type} [DecidableEq α] {m : List (α × β)} {k : α} {p : α × β} :
    p ∈ aerase m k ↔ p ∈ m ∧ p.1 ≠ k := by
  simp [aerase, List.mem_filter]

theorem mem_ainsert {α β : Type} [DecidableEq α] {m : List (α × β)} {k : α} {v : β}
    {p : α × β} : p ∈ ainsert m k v ↔ p = (k, v) ∨ (p ∈ m ∧ p.1 ≠ k) := by
  simp [ainsert, List.mem_cons, mem_aerase]

theorem aerase_cons {α β : Type} [DecidableEq α] (p : α × β) (rest : List (α × β)) (k : α) :
    aerase (p :: rest) k = if p.1 = k then aerase rest k else p :: aerase rest k := by
  by_cases hk : p.1 = k
  · simp [aerase, hk]
  · simp [aerase, hk]

theorem alookup_aerase_self {α β : Type} [DecidableEq α] (m : List (α × β)) (k : α) :
    alookup (aerase m k) k = none := by
  induction m with
  | nil => rfl
  | cons p rest ih =>
    rw [aerase_cons]
    by_cases hk : p.1 = k
    · rw [if_pos hk]; exact ih
    · rw [if_neg hk, alookup, if_neg hk]; exact ih

theorem alookup_aerase_ne {α β : Type} [DecidableEq α] {m : List (α × β)} {k k' : α}
    (h : k' ≠ k) : alookup (aerase m k) k' = alookup m k' := by
  induction m with
  | nil => rfl
  | cons p rest ih =>
    rw [aerase_cons]
    by_cases hk : p.1 = k
    · have hp : p.1 ≠ k' := fun hh => h (hh ▸ hk)
      rw [if_pos hk, alookup, if_neg hp]
      exact ih
    · by_cases hp : p.1 = k'
      · rw [if_neg hk, alookup, if_pos hp, alookup, if_pos hp]
      · rw [if_neg hk, alookup, if_neg hp, alookup, if_neg hp]
        exact ih

theorem alookup_ainsert_self {α β : Type} [DecidableEq α] (m : List (α × β)) (k : α) (v : β) :
    alookup (ainsert m k v) k = some v := by
  simp [ainsert, alookup]

theorem alookup_ainsert_ne {α β : Type} [DecidableEq α] {m : List (α × β)} {k k' : α}
    {v : β} (h : k' ≠ k) : alookup (ainsert m k v) k' = alookup m k' := by
  have hk : k ≠ k' := fun hh => h hh.symm
  simp only [ainsert, alookup, if_neg hk]
  exact alookup_aerase_ne h

theorem keys_aerase_sublist {α β : Type} [DecidableEq α] (m : List (α × β)) (k : α) :
    ((aerase m k).map Prod.fst).Sublist (m.map Prod.fst) :=
  (List.filter_sublist m).map Prod.fst

theorem keys_aerase_nodup {α β : Type} [DecidableEq α] {m : List (α × β)} (k : α)
    (h : (m.map Prod.fst).Nodup) : ((aerase m k).map Prod.fst).Nodup :=
  h.sublist (keys_aerase_sublist m k)

theorem not_mem_keys_aerase {α β : Type} [DecidableEq α] (m : List (α × β)) (k : α) :
    k ∉ (aerase m k).map Prod.fst := by
  intro h
  rcases List.mem_map.mp h with ⟨p, hp, hfst⟩
  exact (mem_aerase.mp hp).2 hfst

theorem keys_ainsert_nodup {α β : Type} [DecidableEq α] {m : List (α × β)} (k : α) (v : β)
    (h : (m.map Prod.fst).Nodup) : ((ainsert m k v).map Prod.fst).Nodup := by
  simp only [ainsert, List.map_cons]
  exact List.Nodup.cons (not_mem_keys_aerase m k) (keys_aerase_nodup k h)

/-! ## Parser sanity checks -/

example : parse_quic_packet [0x80, 0, 0, 0, 1, 0, 0, 0] = some ⟨1, [], [], 0, []⟩ := by decide

example : parse_quic_packet [0x80, 0, 0, 0, 1, 1, 7, 0, 0] = some ⟨1, [7], [], 0, []⟩ := by
  decide

example : parse_quic_packet [0x40, 1, 2] = none := by decide

example : decode_varint [0x40] = (0, 0) := by decide

example : parse_quic_packet [0x80, 0, 0, 0, 1, 0, 0, 0x40] = some ⟨1, [], [], 0, []⟩ := by
  decide

/-! ## Invariant preservation -/

theorem InvAt_initCore : InvAt initCore := by
  refine ⟨?_, ?_, ?_, ?_, ?_⟩ <;> simp [initCore]

theorem InvAt_removeConnection_aux (c : CoreState) (cid : Cid)
    (h1 : ∀ p ∈ c.addrToCid, alookup c.cidToAddr p.2 = some p.1)
    (h2 : ∀ q ∈ c.cidToAddr, alookup c.addrToCid q.2 = some q.1)
    (h3 : ∀ p ∈ c.addrToCid, p.2 ≠ cid → sessionFor c p.2 = true)
    (h4 : (c.addrToCid.map Prod.fst).Nodup)
    (h5 : (c.cidToAddr.map Prod.fst).Nodup) :
    InvAt (removeConnection c cid) := by
  cases haddr : alookup c.cidToAddr cid with
  | none =>
    simp only [removeConnection, haddr]
    refine ⟨?_, ?_, ?_, h4, keys_aerase_nodup cid h5⟩
    · intro p hp
      have h1p := h1 p hp
      have hne : p.2 ≠ cid := by
        intro he
        rw [he, haddr] at h1p
        exact Option.noConfusion h1p
      rw [alookup_aerase_ne hne]
      exact h1p
    · intro q hq
      exact h2 q (mem_aerase.mp hq).1
    · intro p hp
      have h1p := h1 p hp
      have hne : p.2 ≠ cid := by
        intro he
        rw [he, haddr] at h1p
        exact Option.noConfusion h1p
      simp only [sessionFor]
      rw [alookup_aerase_ne hne]
      exact h3 p hp hne
  | some a =>
    simp only [removeConnection, haddr]
    refine ⟨?_, ?_, ?_, keys_aerase_nodup a h4, keys_aerase_nodup cid h5⟩
    · intro p hp'
      obtain ⟨hp, hpa⟩ := mem_aerase.mp hp'
      have h1p := h1 p hp
      have hne : p.2 ≠ cid := by
        intro he
        rw [he, haddr] at h1p
        injection h1p with hh
        exact hpa hh.symm
      rw [alookup_aerase_ne hne]
      exact h1p
    · intro q hq'
      obtain ⟨hq, hqc⟩ := mem_aerase.mp hq'
      have h2q := h2 q hq
      have hqa : q.2 ≠ a := by
        intro he
        have hmem : (cid, a) ∈ c.cidToAddr := alookup_eq_some_mem haddr
        have hca := h2 (cid, a) hmem
        rw [he] at h2q
        rw [hca] at h2q
        injection h2q with hh
        exact hqc hh.symm
      rw [alookup_aerase_ne hqa]
      exact h2q
    · intro p hp'
      obtain ⟨hp, hpa⟩ := mem_aerase.mp hp'
      have h1p := h1 p hp
      have hne : p.2 ≠ cid := by
        intro he
        rw [he, haddr] at h1p
        injection h1p with hh
        exact hpa hh.symm
      simp only [sessionFor]
      rw [alookup_aerase_ne hne]
      exact h3 p hp hne

theorem InvAt_removeConnection (c : CoreState) (cid : Cid) (h : InvAt c) :
    InvAt (removeConnection c cid) :=
  InvAt_removeConnection_aux c cid h.1 h.2.1 (fun p hp _ => h.2.2.1 p hp) h.2.2.2.1
    h.2.2.2.2

theorem InvAt_removePendingConnection (c : CoreState) (cid : Cid) (h : InvAt c) :
    InvAt (removePendingConnection c cid) := by
  obtain ⟨h1, h2, h3, h4, h5⟩ := h
  cases haddr : alookup c.cidToAddr cid with
  | none =>
    simp only [removePendingConnection, haddr]
    refine ⟨?_, ?_, ?_, h4, keys_aerase_nodup cid h5⟩
    · intro p hp
      have h1p := h1 p hp
      have hne : p.2 ≠ cid := by
        intro he
        rw [he, haddr] at h1p
        exact Option.noConfusion h1p
      rw [alookup_aerase_ne hne]
      exact h1p
    · intro q hq
      exact h2 q (mem_aerase.mp hq).1
    · intro p hp
      have h1p := h1 p hp
      have hne : p.2 ≠ cid := by
        intro he
        rw [he, haddr] at h1p
        exact Option.noConfusion h1p
      simp only [sessionFor]
      rw [alookup_aerase_ne hne]
      exact h3 p hp
  | some a =>
    simp only [removePendingConnection, haddr]
    refine ⟨?_, ?_, ?_, keys_aerase_nodup a h4, keys_aerase_nodup cid h5⟩
    · intro p hp'
      obtain ⟨hp, hpa⟩ := mem_aerase.mp hp'
      have h1p := h1 p hp
      have hne : p.2 ≠ cid := by
        intro he
        rw [he, haddr] at h1p
        injection h1p with hh
        exact hpa hh.symm
      rw [alookup_aerase_ne hne]
      exact h1p
    · intro q hq'
      obtain ⟨hq, hqc⟩ := mem_aerase.mp hq'
      have h2q := h2 q hq
      have hqa : q.2 ≠ a := by
        intro he
        have hmem : (cid, a) ∈ c.cidToAddr := alookup_eq_some_mem haddr
        have hca := h2 (cid, a) hmem
        rw [he] at h2q
        rw [hca] at h2q
        injection h2q with hh
        exact hqc hh.symm
      rw [alookup_aerase_ne hqa]
      exact h2q
    · intro p hp'
      obtain ⟨hp, hpa⟩ := mem_aerase.mp hp'
      have h1p := h1 p hp
      have hne : p.2 ≠ cid := by
        intro he
        rw [he, haddr] at h1p
        injection h1p with hh
        exact hpa hh.symm
      simp only [sessionFor]
      rw [alookup_aerase_ne hne]
      exact h3 p hp

theorem InvAt_promoteMaps (c : CoreState) (cid : Cid) (h : InvAt c) :
    InvAt { c with pending := aerase c.pending cid,
                   connections := ainsert c.connections cid () } := by
  obtain ⟨h1, h2, h3, h4, h5⟩ := h
  refine ⟨h1, h2, ?_, h4, h5⟩
  intro p hp
  by_cases hpc : p.2 = cid
  · simp [sessionFor, hpc, alookup_ainsert_self]
  · simp only [sessionFor]
    rw [alookup_aerase_ne hpc, alookup_ainsert_ne hpc]
    exact h3 p hp

theorem InvAt_promote (cfg : ListenerConfig) (c : CoreState) (addr : Addr) (cid : Cid)
    (po : PromoteOracle) (h : InvAt c) :
    InvAt (promotePendingConnection cfg c addr cid po).1 := by
  obtain ⟨h1, h2, h3, h4, h5⟩ := h
  unfold promotePendingConnection
  split
  · refine InvAt_removeConnection_aux _ cid h1 h2 ?_ h4 h5
    intro p hp hne
    simp only [sessionFor]
    rw [alookup_aerase_ne hne]
    exact h3 p hp
  · split
    · exact InvAt_promoteMaps c cid ⟨h1, h2, h3, h4, h5⟩
    · exact InvAt_promoteMaps c cid ⟨h1, h2, h3, h4, h5⟩

theorem InvAt_processQuicEvents (cfg : ListenerConfig) (addr : Addr) (cid : Cid)
    (evs : List QuicEvent) :
    ∀ c : CoreState, InvAt c → InvAt (processQuicEvents cfg addr cid c evs) := by
  induction evs with
  | nil => intro c h; exact h
  | cons e rest ih =>
    intro c h
    cases e with
    | connectionTerminated => exact InvAt_removeConnection c cid h
    | handshakeCompleted po => exact ih _ (InvAt_promote cfg c addr cid po h)
    | streamDataReceived => exact ih c h
    | streamReset => exact ih c h

theorem InvAt_handlePendingConnection (cfg : ListenerConfig) (c : CoreState) (addr : Addr)
    (cid : Cid) (o : EngineOracle) (h : InvAt c) :
    InvAt (handlePendingConnection cfg c addr cid o) := by
  unfold handlePendingConnection
  split
  · exact InvAt_removePendingConnection c cid h
  · split
    · exact InvAt_removePendingConnection _ cid
        (InvAt_processQuicEvents cfg addr cid o.events c h)
    · exact InvAt_processQuicEvents cfg addr cid o.events c h

theorem InvAt_removeConnectionByAddr (c : CoreState) (a : Addr) (h : InvAt c) :
    InvAt (removeConnectionByAddr c a) := by
  unfold removeConnectionByAddr
  split
  · exact InvAt_removeConnection c _ h
  · exact h

theorem InvAt_routeToConnection (c : CoreState) (addr : Addr) (b : Bool) (h : InvAt c) :
    InvAt (routeToConnection c addr b) := by
  unfold routeToConnection
  split
  · exact InvAt_removeConnectionByAddr c addr h
  · exact h

theorem InvAt_insertNew (c : CoreState) (addr : Addr) (ncid : Cid)
    (h : InvAt c) (haddr : alookup c.addrToCid addr = none) (hf : FreshCid c ncid) :
    InvAt { c with pending := ainsert c.pending ncid (),
                   addrToCid := ainsert c.addrToCid addr ncid,
                   cidToAddr := ainsert c.cidToAddr ncid addr } := by
  obtain ⟨h1, h2, h3, h4, h5⟩ := h
  obtain ⟨hf1, hf2, hf3⟩ := hf
  refine ⟨?_, ?_, ?_, keys_ainsert_nodup addr ncid h4, keys_ainsert_nodup ncid addr h5⟩
  · intro p hp
    rcases mem_ainsert.mp hp with hpe | ⟨hpm, hpa⟩
    · subst hpe
      exact alookup_ainsert_self c.cidToAddr ncid addr
    · have h1p := h1 p hpm
      have hne : p.2 ≠ ncid := by
        intro he
        rw [he, hf1] at h1p
        exact Option.noConfusion h1p
      rw [alookup_ainsert_ne hne]
      exact h1p
  · intro q hq
    rcases mem_ainsert.mp hq with hqe | ⟨hqm, hqc⟩
    · subst hqe
      exact alookup_ainsert_self c.addrToCid addr ncid
    · have h2q := h2 q hqm
      have hne : q.2 ≠ addr := by
        intro he
        rw [he, haddr] at h2q
        exact Option.noConfusion h2q
      rw [alookup_ainsert_ne hne]
      exact h2q
  · intro p hp
    rcases mem_ainsert.mp hp with hpe | ⟨hpm, hpa⟩
    · subst hpe
      simp [sessionFor, alookup_ainsert_self]
    · have h1p := h1 p hpm
      have hne : p.2 ≠ ncid := by
        intro he
        rw [he, hf1] at h1p
        exact Option.noConfusion h1p
      simp only [sessionFor]
      rw [alookup_ainsert_ne hne]
      exact h3 p hpm

theorem InvAt_handleNewEngine (cfg : ListenerConfig) (addr : Addr) (cid : Cid)
    (e : EngineOracle) (c1 : CoreState) (h : InvAt c1) :
    InvAt (handleNewEngine cfg addr cid e c1).1 := by
  unfold handleNewEngine
  split
  · exact h
  · split
    · exact InvAt_processQuicEvents cfg addr cid e.events c1 h
    · exact InvAt_processQuicEvents cfg addr cid e.events c1 h

theorem InvAt_handleNewConnection (cfg : ListenerConfig) (c : CoreState) (addr : Addr)
    (scid : Cid) (o : NewConnOracle) (h : InvAt c)
    (haddr : alookup c.addrToCid addr = none) (hf : FreshCid c o.newCid) :
    InvAt (handleNewConnection cfg c addr scid o).1 := by
  unfold handleNewConnection
  split
  · exact h
  · split
    · exact h
    · exact InvAt_handleNewEngine cfg addr o.newCid o.engine _
        (InvAt_insertNew c addr o.newCid h haddr hf)

theorem InvAt_handleShortHeaderPacket (cfg : ListenerConfig) (c : CoreState) (addr : Addr)
    (o : PacketOracle) (h : InvAt c) :
    InvAt (handleShortHeaderPacket cfg c addr o) := by
  unfold handleShortHeaderPacket
  split
  · split
    · exact h
    · split
      · exact InvAt_routeToConnection c addr o.routeRaises h
      · split
        · exact InvAt_handlePendingConnection cfg c addr _ o.engine h
        · exact h
  · exact h

theorem InvAt_processByAddr (cfg : ListenerConfig) (c0 : CoreState) (pi : QUICPacketInfo)
    (addr : Addr) (ecid : Cid) (o : PacketOracle) (h : InvAt c0)
    (he : alookup c0.addrToCid addr = some ecid) (hf : FreshCid c0 o.newConn.newCid) :
    InvAt (processByAddr cfg c0 pi addr ecid o).1 := by
  unfold processByAddr
  split
  · exact InvAt_handlePendingConnection cfg c0 addr ecid o.engine h
  · split
    · exact InvAt_routeToConnection c0 addr o.routeRaises h
    · exfalso
      rename_i hpend hconn
      have hmem : (addr, ecid) ∈ c0.addrToCid := alookup_eq_some_mem he
      have hsess := h.2.2.1 (addr, ecid) hmem
      simp only [sessionFor] at hsess
      rcases Bool.or_eq_true_iff.mp hsess with hs | hs
      · exact hpend hs
      · exact hconn hs

theorem InvAt_processParsed (cfg : ListenerConfig) (c0 : CoreState) (pi : QUICPacketInfo)
    (addr : Addr) (o : PacketOracle) (h : InvAt c0) (hf : FreshCid c0 o.newConn.newCid) :
    InvAt (processParsed cfg c0 pi addr o).1 := by
  unfold processParsed
  split
  · exact h
  · split
    · split
      · exact InvAt_routeToConnection c0 addr o.routeRaises h
      · split
        · exact InvAt_handlePendingConnection cfg c0 addr pi.destination_cid o.engine h
        · split
          next ecid he => exact InvAt_processByAddr cfg c0 pi addr ecid o h he hf
          next he =>
            split
            · exact InvAt_handleNewConnection cfg c0 addr pi.source_cid o.newConn h he hf
            · exact h
    · exact h

theorem InvAt_processPacket (cfg : ListenerConfig) (c : CoreState) (data : List Nat)
    (addr : Addr) (o : PacketOracle) (h : InvAt c) (hf : FreshCid c o.newConn.newCid) :
    InvAt (processPacket cfg c data addr o).1 := by
  unfold processPacket
  split
  · exact InvAt_processParsed cfg (bumpStats c data.length) _ addr o h hf
  · exact InvAt_handleShortHeaderPacket cfg (bumpStats c data.length) addr o h

theorem InvAt_reachable (cfg : ListenerConfig) (c : CoreState)
    (h : DatagramReachable cfg c) : InvAt c := by
  induction h with
  | base => exact InvAt_initCore
  | step c data addr o hr hfresh ih => exact InvAt_processPacket cfg c data addr o ih hfresh

/-! ## State-effect lemmas for the teardown helpers -/

theorem removeConnection_pending (c : CoreState) (cid : Cid) :
    (removeConnection c cid).pending = c.pending := by
  cases h : alookup c.cidToAddr cid <;> simp [removeConnection, h]

theorem removeConnection_connections_self (c : CoreState) (cid : Cid) :
    alookup (removeConnection c cid).connections cid = none := by
  cases h : alookup c.cidToAddr cid <;> simp [removeConnection, h, alookup_aerase_self]

theorem removeConnection_connections_ne (c : CoreState) {cid k : Cid} (h : k ≠ cid) :
    alookup (removeConnection c cid).connections k = alookup c.connections k := by
  cases hc : alookup c.cidToAddr cid <;> simp [removeConnection, hc, alookup_aerase_ne h]

theorem removeConnection_cidToAddr_self (c : CoreState) (cid : Cid) :
    alookup (removeConnection c cid).cidToAddr cid = none := by
  cases h : alookup c.cidToAddr cid <;> simp [removeConnection, h, alookup_aerase_self]

theorem removeConnection_cidToAddr_ne (c : CoreState) {cid k : Cid} (h : k ≠ cid) :
    alookup (removeConnection c cid).cidToAddr k = alookup c.cidToAddr k := by
  cases hc : alookup c.cidToAddr cid <;> simp [removeConnection, hc, alookup_aerase_ne h]

theorem removeConnection_addrToCid_none (c : CoreState) (cid : Cid)
    (h : alookup c.cidToAddr cid = none) :
    (removeConnection c cid).addrToCid = c.addrToCid := by
  simp [removeConnection, h]

theorem removeConnection_addrToCid_some (c : CoreState) (cid : Cid) (a : Addr)
    (h : alookup c.cidToAddr cid = some a) :
    alookup (removeConnection c cid).addrToCid a = none := by
  simp [removeConnection, h, alookup_aerase_self]

theorem removeConnection_addrToCid_some_ne (c : CoreState) (cid : Cid) (a a' : Addr)
    (h : alookup c.cidToAddr cid = some a) (h' : a' ≠ a) :
    alookup (removeConnection c cid).addrToCid a' = alookup c.addrToCid a' := by
  simp [removeConnection, h, alookup_aerase_ne h']

theorem removeConnection_statsAccepted (c : CoreState) (cid : Cid) :
    (removeConnection c cid).statsAccepted = c.statsAccepted := by
  cases h : alookup c.cidToAddr cid <;> simp [removeConnection, h]

theorem removePendingConnection_pending_self (c : CoreState) (cid : Cid) :
    alookup (removePendingConnection c cid).pending cid = none := by
  cases h : alookup c.cidToAddr cid <;>
    simp [removePendingConnection, h, alookup_aerase_self]

theorem removePendingConnection_cidToAddr_self (c : CoreState) (cid : Cid) :
    alookup (removePendingConnection c cid).cidToAddr cid = none := by
  cases h : alookup c.cidToAddr cid <;>
    simp [removePendingConnection, h, alookup_aerase_self]

theorem removePendingConnection_addrToCid_some (c : CoreState) (cid : Cid) (a : Addr)
    (h : alookup c.cidToAddr cid = some a) :
    alookup (removePendingConnection c cid).addrToCid a = none := by
  simp [removePendingConnection, h, alookup_aerase_self]

theorem removePendingConnection_connections (c : CoreState) (cid : Cid) :
    (removePendingConnection c cid).connections = c.connections := by
  cases h : alookup c.cidToAddr cid <;> simp [removePendingConnection, h]

/-! ## Claim C1 -/

/-- Claim C1: Routing consistency invariant — in every listener state reachable
by processing any sequence of datagrams, `_addr_to_cid` and `_cid_to_addr` are
mutual inverses on their common domain: whenever `addrToCid` maps `a` to `cid`
then `cidToAddr` maps `cid` back to `a`, and conversely.  The
dangling-address-mapping cleanup path is covered because reachable states in
fact never contain a dangling address mapping (`InvAt_reachable`), so the
invariant survives it vacuously. -/
theorem routing_consistency (cfg : ListenerConfig) (c : CoreState)
    (h : DatagramReachable cfg c) :
    (∀ a cid, alookup c.addrToCid a = some cid → alookup c.cidToAddr cid = some a) ∧
    (∀ cid a, alookup c.cidToAddr cid = some a → alookup c.addrToCid a = some cid) := by
  have hi := InvAt_reachable cfg c h
  exact ⟨fun a cid hl => hi.1 (a, cid) (alookup_eq_some_mem hl),
    fun cid a hl => hi.2.1 (cid, a) (alookup_eq_some_mem hl)⟩

/-- Witness for `routing_consistency` at the concrete reachable state obtained
by processing one Initial datagram from the initial state. -/
theorem routing_consistency_witness :
    (∀ a cid,
        alookup (processPacket cfg0 initCore dgramInit addr0 oracle0).1.addrToCid a =
            some cid →
          alookup (processPacket cfg0 initCore dgramInit addr0 oracle0).1.cidToAddr cid =
            some a) ∧
    (∀ cid a,
        alookup (processPacket cfg0 initCore dgramInit addr0 oracle0).1.cidToAddr cid =
            some a →
          alookup (processPacket cfg0 initCore dgramInit addr0 oracle0).1.addrToCid a =
            some cid) :=
  routing_consistency cfg0 (processPacket cfg0 initCore dgramInit addr0 oracle0).1
    (DatagramReachable.step initCore dgramInit addr0 oracle0 DatagramReachable.base
      ⟨rfl, rfl, rfl⟩)

/-! ## Claim C2 -/

/-- Claim C2 counterexample: the claim says a `ConnectionTerminated` event for a
cid removes the session from whichever of the pending and established maps holds
it.  Concretely: from the initial state, one Initial datagram creates pending
session `[7]`; a second datagram routed to it whose drain yields
`ConnectionTerminated` leaves `[7]` in the pending map (while both of its
address mappings are gone) — the pending-map entry is not removed. -/
theorem terminated_pending_leak_counterexample :
    (alookup (processPacket cfg0 (processPacket cfg0 initCore dgramInit addr0 oracle0).1
        dgramCid7 addr0 oracleTerm).1.pending [7]).isSome = true ∧
    alookup (processPacket cfg0 (processPacket cfg0 initCore dgramInit addr0 oracle0).1
        dgramCid7 addr0 oracleTerm).1.cidToAddr [7] = none ∧
    alookup (processPacket cfg0 (processPacket cfg0 initCore dgramInit addr0 oracle0).1
        dgramCid7 addr0 oracleTerm).1.connections [7] = none := by
  decide

/-- Claim C2 (amended): handling a `ConnectionTerminated` event invokes
`_remove_connection`, which removes the established-map entry for the cid and
both of its address mappings but leaves the pending map unchanged; a pending
session's map entry therefore survives its termination event. -/
theorem terminated_cleanup_amended (cfg : ListenerConfig) (c : CoreState) (addr : Addr)
    (cid : Cid) (o : EngineOracle) (hr : o.recvRaises = false)
    (he : o.events = [QuicEvent.connectionTerminated]) :
    handlePendingConnection cfg c addr cid o = removeConnection c cid ∧
    (removeConnection c cid).pending = c.pending ∧
    alookup (removeConnection c cid).connections cid = none ∧
    alookup (removeConnection c cid).cidToAddr cid = none ∧
    (∀ a, alookup c.cidToAddr cid = some a →
      alookup (removeConnection c cid).addrToCid a = none) := by
  refine ⟨?_, removeConnection_pending c cid, removeConnection_connections_self c cid,
    removeConnection_cidToAddr_self c cid,
    fun a ha => removeConnection_addrToCid_some c cid a ha⟩
  simp [handlePendingConnection, hr, he, processQuicEvents, hasTerminated]

/-- Witness for `terminated_cleanup_amended` at a concrete one-pending-session
state. -/
theorem terminated_cleanup_amended_witness :
    engTerm.recvRaises = false ∧ engTerm.events = [QuicEvent.connectionTerminated] ∧
    (handlePendingConnection cfg0 corePend7 addr0 [7] engTerm =
        removeConnection corePend7 [7] ∧
      (removeConnection corePend7 [7]).pending = corePend7.pending ∧
      alookup (removeConnection corePend7 [7]).connections [7] = none ∧
      alookup (removeConnection corePend7 [7]).cidToAddr [7] = none ∧
      (∀ a, alookup corePend7.cidToAddr [7] = some a →
        alookup (removeConnection corePend7 [7]).addrToCid a = none)) :=
  ⟨by decide, by decide,
    terminated_cleanup_amended cfg0 corePend7 addr0 [7] engTerm (by decide) (by decide)⟩

/-! ## Claim C6 -/

/-- Claim C6 counterexample: the claim says a post-handshake security failure
increments `connections_rejected`.  Concretely: with a security manager
configured, an Initial datagram creates pending session `[7]`; a second
datagram whose drain yields `HandshakeCompleted` with failing peer-identity
verification leaves `connections_rejected` at 0 (and the wrapper parked in the
established map). -/
theorem security_failure_counterexample :
    (processPacket cfgSec (processPacket cfgSec initCore dgramInit addr0 oracle0).1
        dgramCid7 addr0 oraclePromFail).1.statsRejected = 0 ∧
    (alookup (processPacket cfgSec (processPacket cfgSec initCore dgramInit addr0 oracle0).1
        dgramCid7 addr0 oraclePromFail).1.connections [7]).isSome = true ∧
    (processPacket cfgSec (processPacket cfgSec initCore dgramInit addr0 oracle0).1
        dgramCid7 addr0 oraclePromFail).1.statsAccepted = 0 := by
  decide

/-- Claim C6 (amended): when peer-identity verification fails during promotion,
the connection is closed and the upstream handler is not invoked, but
`connections_rejected` is not incremented (and the wrapper remains in the
established map). -/
theorem security_failure_amended (cfg : ListenerConfig) (c : CoreState) (addr : Addr)
    (cid : Cid) (h : cfg.hasSecurity = true) :
    (promotePendingConnection cfg c addr cid ⟨false, false⟩).2.connCloseCalled = true ∧
    (promotePendingConnection cfg c addr cid ⟨false, false⟩).2.handlerStarted = false ∧
    (promotePendingConnection cfg c addr cid ⟨false, false⟩).1.statsRejected =
      c.statsRejected ∧
    (promotePendingConnection cfg c addr cid ⟨false, false⟩).1.statsAccepted =
      c.statsAccepted ∧
    (alookup (promotePendingConnection cfg c addr cid ⟨false, false⟩).1.connections
        cid).isSome = true := by
  simp [promotePendingConnection, h, alookup_ainsert_self]

/-- Witness for `security_failure_amended` at a concrete one-pending-session
state with a security manager configured. -/
theorem security_failure_amended_witness :
    cfgSec.hasSecurity = true ∧
    ((promotePendingConnection cfgSec corePend7 addr0 [7] ⟨false, false⟩).2.connCloseCalled
        = true ∧
      (promotePendingConnection cfgSec corePend7 addr0 [7] ⟨false, false⟩).2.handlerStarted
        = false ∧
      (promotePendingConnection cfgSec corePend7 addr0 [7] ⟨false, false⟩).1.statsRejected
        = corePend7.statsRejected ∧
      (promotePendingConnection cfgSec corePend7 addr0 [7] ⟨false, false⟩).1.statsAccepted
        = corePend7.statsAccepted ∧
      (alookup (promotePendingConnection cfgSec corePend7 addr0 [7]
          ⟨false, false⟩).1.connections [7]).isSome = true) :=
  ⟨by decide, security_failure_amended cfgSec corePend7 addr0 [7] (by decide)⟩

/-! ## Claim C7 -/

/-- Claim C7 counterexample: the claim says an engine error during receive
removes the session on every path, including the path that has just created a
new pending session from an Initial packet.  Concretely: an Initial datagram
whose `receive_datagram` call raises right after the session was created leaves
the new pending session `[7]` and both of its routing entries in place
(`_handle_new_connection`'s except branch only bumps `connections_rejected`). -/
theorem new_connection_error_leak_counterexample :
    (alookup (processPacket cfg0 initCore dgramInit addr0 oracleRecvRaise).1.pending
        [7]).isSome = true ∧
    alookup (processPacket cfg0 initCore dgramInit addr0 oracleRecvRaise).1.addrToCid addr0 =
      some [7] ∧
    (processPacket cfg0 initCore dgramInit addr0 oracleRecvRaise).1.statsRejected = 1 := by
  decide

/-- Claim C7 (amended): an engine error is always contained, but the cleanup
differs by path — on the pending-routing path the session and both address
mappings are removed by cid; on the established-routing path removal goes
through the packet's source address and leaves the state unchanged when that
address is unmapped; on the just-created-connection path the new session and
its routing entries are retained and only `connections_rejected` is bumped. -/
theorem session_failure_amended (cfg : ListenerConfig) (c : CoreState) (addr : Addr)
    (cid : Cid) (evs : List QuicEvent) (b : Bool) (k : Cid) (scid : Cid) :
    (handlePendingConnection cfg c addr cid ⟨true, evs, b⟩ =
        removePendingConnection c cid ∧
      alookup (removePendingConnection c cid).pending cid = none ∧
      alookup (removePendingConnection c cid).cidToAddr cid = none ∧
      (∀ a, alookup c.cidToAddr cid = some a →
        alookup (removePendingConnection c cid).addrToCid a = none)) ∧
    (routeToConnection c addr true = removeConnectionByAddr c addr ∧
      (alookup c.addrToCid addr = none → routeToConnection c addr true = c)) ∧
    ((alookup (handleNewConnection cfg c addr scid
        ⟨true, false, k, ⟨true, evs, b⟩⟩).1.pending k).isSome = true ∧
      alookup (handleNewConnection cfg c addr scid
        ⟨true, false, k, ⟨true, evs, b⟩⟩).1.addrToCid addr = some k ∧
      alookup (handleNewConnection cfg c addr scid
        ⟨true, false, k, ⟨true, evs, b⟩⟩).1.cidToAddr k = some addr ∧
      (handleNewConnection cfg c addr scid
        ⟨true, false, k, ⟨true, evs, b⟩⟩).1.statsRejected = c.statsRejected + 1) := by
  refine ⟨⟨?_, removePendingConnection_pending_self c cid,
      removePendingConnection_cidToAddr_self c cid,
      fun a ha => removePendingConnection_addrToCid_some c cid a ha⟩,
    ⟨rfl, ?_⟩, ?_, ?_, ?_, ?_⟩
  · simp [handlePendingConnection]
  · intro ha
    simp [routeToConnection, removeConnectionByAddr, ha]
  · simp [handleNewConnection, handleNewEngine, alookup_ainsert_self]
  · simp [handleNewConnection, handleNewEngine, alookup_ainsert_self]
  · simp [handleNewConnection, handleNewEngine, alookup_ainsert_self]
  · simp [handleNewConnection, handleNewEngine]

/-- Witness for `session_failure_amended` at concrete inputs (no hypotheses,
instantiation only). -/
theorem session_failure_amended_witness :
    (handlePendingConnection cfg0 corePend7 addr0 [7] ⟨true, [], false⟩ =
        removePendingConnection corePend7 [7] ∧
      alookup (removePendingConnection corePend7 [7]).pending [7] = none ∧
      alookup (removePendingConnection corePend7 [7]).cidToAddr [7] = none ∧
      (∀ a, alookup corePend7.cidToAddr [7] = some a →
        alookup (removePendingConnection corePend7 [7]).addrToCid a = none)) ∧
    (routeToConnection corePend7 addr0 true = removeConnectionByAddr corePend7 addr0 ∧
      (alookup corePend7.addrToCid addr0 = none →
        routeToConnection corePend7 addr0 true = corePend7)) ∧
    ((alookup (handleNewConnection cfg0 corePend7 addr0 [9]
        ⟨true, false, [8], ⟨true, [], false⟩⟩).1.pending [8]).isSome = true ∧
      alookup (handleNewConnection cfg0 corePend7 addr0 [9]
        ⟨true, false, [8], ⟨true, [], false⟩⟩).1.addrToCid addr0 = some [8] ∧
      alookup (handleNewConnection cfg0 corePend7 addr0 [9]
        ⟨true, false, [8], ⟨true, [], false⟩⟩).1.cidToAddr [8] = some addr0 ∧
      (handleNewConnection cfg0 corePend7 addr0 [9]
        ⟨true, false, [8], ⟨true, [], false⟩⟩).1.statsRejected =
        corePend7.statsRejected + 1) :=
  session_failure_amended cfg0 corePend7 addr0 [7] [] false [8] [9]

/-! ## Claim C9 -/

/-- Claim C9 counterexample: the claim says that if promotion fails, the session
is removed and `connections_rejected` is incremented.  Concretely: at a
one-pending-session state with a security manager configured, promotion of
`[7]` with failing peer-identity verification is a failed promotion (the
handler is never started, `connections_accepted` stays 0), yet the session
stays in the established map and `connections_rejected` stays 0. -/
theorem promotion_failure_counterexample :
    (promotePendingConnection cfgSec corePend7 addr0 [7] ⟨false, false⟩).1.statsRejected
      = 0 ∧
    (alookup (promotePendingConnection cfgSec corePend7 addr0 [7]
        ⟨false, false⟩).1.connections [7]).isSome = true ∧
    (promotePendingConnection cfgSec corePend7 addr0 [7] ⟨false, false⟩).2.handlerStarted
      = false ∧
    (promotePendingConnection cfgSec corePend7 addr0 [7] ⟨false, false⟩).1.statsAccepted
      = 0 := by
  decide

/-- Claim C9 (amended): successful promotion removes exactly the pending entry
for the cid, inserts the wrapper into the established map under the same cid,
leaves both address mappings untouched and bumps `connections_accepted`;
a raise during wrapper construction removes the session and both mappings and
bumps `connections_rejected`, touching nothing else; but a security-
verification failure leaves the wrapper in the established map and changes
neither counter. -/
theorem promotion_frame_amended (cfg : ListenerConfig) (c : CoreState) (addr : Addr)
    (cid : Cid) (hsec : cfg.hasSecurity = true) :
    PromoteSuccessFrame cfg c addr cid ∧ PromoteExnFrame cfg c addr cid ∧
      PromoteSecFailFrame cfg c addr cid := by
  have hS : promotePendingConnection cfg c addr cid ⟨false, true⟩ =
      ({ c with pending := aerase c.pending cid,
                connections := ainsert c.connections cid (),
                statsAccepted := c.statsAccepted + 1 }, ⟨true, false⟩) := by
    simp [promotePendingConnection, hsec]
  have hF : promotePendingConnection cfg c addr cid ⟨false, false⟩ =
      ({ c with pending := aerase c.pending cid,
                connections := ainsert c.connections cid () }, ⟨false, true⟩) := by
    simp [promotePendingConnection, hsec]
  refine ⟨?_, ?_, ?_⟩
  · unfold PromoteSuccessFrame
    rw [hS]
    exact ⟨alookup_aerase_self c.pending cid, fun k hk => alookup_aerase_ne hk,
      by simp [alookup_ainsert_self], fun k hk => alookup_ainsert_ne hk, rfl, rfl, rfl,
      rfl, rfl⟩
  · have hcp : (removeConnection { c with pending := aerase c.pending cid } cid).pending =
        aerase c.pending cid :=
      removeConnection_pending { c with pending := aerase c.pending cid } cid
    refine ⟨?_, ?_, ?_, ?_, ?_, ?_, ?_, ?_, ?_, ?_, ?_⟩
    · show alookup (removeConnection { c with pending := aerase c.pending cid }
        cid).pending cid = none
      rw [hcp]
      exact alookup_aerase_self c.pending cid
    · intro k hk
      show alookup (removeConnection { c with pending := aerase c.pending cid }
        cid).pending k = alookup c.pending k
      rw [hcp]
      exact alookup_aerase_ne hk
    · exact removeConnection_connections_self _ cid
    · intro k hk
      exact removeConnection_connections_ne _ hk
    · exact removeConnection_cidToAddr_self _ cid
    · intro k hk
      exact removeConnection_cidToAddr_ne _ hk
    · intro a ha
      exact removeConnection_addrToCid_some _ cid a ha
    · intro a a' ha ha'
      exact removeConnection_addrToCid_some_ne _ cid a a' ha ha'
    · intro ha
      exact removeConnection_addrToCid_none _ cid ha
    · rfl
    · exact removeConnection_statsAccepted _ cid
  · unfold PromoteSecFailFrame
    rw [hF]
    exact ⟨by simp [alookup_ainsert_self], alookup_aerase_self c.pending cid, rfl, rfl,
      rfl, rfl, rfl, rfl⟩

/-- Witness for `promotion_frame_amended` at a concrete one-pending-session
state with a security manager configured. -/
theorem promotion_frame_amended_witness :
    cfgSec.hasSecurity = true ∧
    (PromoteSuccessFrame cfgSec corePend7 addr0 [7] ∧
      PromoteExnFrame cfgSec corePend7 addr0 [7] ∧
      PromoteSecFailFrame cfgSec corePend7 addr0 [7]) :=
  ⟨by decide, promotion_frame_amended cfgSec corePend7 addr0 [7] (by decide)⟩

/-! ## Claim C10 -/

theorem closed_stays (st : ListenerState) (s : SysStep) (h : st.closed = true) :
    (applySysStep st s).closed = true := by
  cases s with
  | datagram d a o => exact h
  | closeCall => simp [applySysStep, closeListener, h]
  | listenCall oc =>
      cases oc <;> by_cases hl : st.listening <;>
        simp [applySysStep, listenStep, closeListener, h, hl]

/-- Claim C10: once `close()` has been called, `is_listening()` returns false in
every subsequent state — the `_closed` flag is set and never reset by any later
step, even a `listen()` call that passes its `_listening`-only guard and sets
`_listening` back to true. -/
theorem closed_is_forever (st : ListenerState) (steps : List SysStep) :
    isListening (applySysSteps (closeListener st) steps) = false := by
  have hc : (closeListener st).closed = true := by
    unfold closeListener
    split
    next h => exact h
    next h => rfl
  have hall : ∀ (l : List SysStep) (s : ListenerState), s.closed = true →
      (applySysSteps s l).closed = true := by
    intro l
    induction l with
    | nil => intro s hs; exact hs
    | cons a rest ih => intro s hs; exact ih (applySysStep s a) (closed_stays s a hs)
  have hdone := hall steps (closeListener st) hc
  unfold isListening
  rw [hdone]
  simp

/-! ## List position lemmas -/

theorem length_sliceAt (d : List Nat) (i n : Nat) (h : i + n ≤ d.length) :
    (sliceAt d i n).length = n := by
  simp only [sliceAt, List.length_take, List.length_drop]
  omega

theorem getD_drop (l : List Nat) : ∀ i j : Nat, (l.drop i).getD j 0 = l.getD (i + j) 0 := by
  induction l with
  | nil => intro i j; simp
  | cons a t ih =>
    intro i j
    cases i with
    | zero => simp
    | succ i =>
      rw [List.drop_succ_cons, ih i j]
      have he : i + 1 + j = (i + j) + 1 := by omega
      rw [he, List.getD_cons_succ]

theorem getD_append_len (l₁ : List Nat) (x : Nat) (l₂ : List Nat) :
    (l₁ ++ x :: l₂).getD l₁.length 0 = x := by
  induction l₁ with
  | nil => rfl
  | cons a t ih => simpa using ih

/-! ## Claim C8 -/

/-- Claim C8: parser safety — `parse_quic_packet` is a total function (the
embedding has no exceptional exit), and whenever it returns a header, the
header's DCID, SCID and token were read entirely within the buffer: their
lengths plus the 7 bytes of fixed header overhead are at most the input
length. -/
theorem parse_advertised_lengths_bound (d : List Nat) (h : QUICPacketInfo)
    (hp : parse_quic_packet d = some h) :
    7 + h.destination_cid.length + h.source_cid.length + h.token.length ≤ d.length := by
  unfold parse_quic_packet at hp
  by_cases h1 : d.length < 1
  · rw [if_pos h1] at hp
    exact Option.noConfusion hp
  rw [if_neg h1] at hp
  by_cases h2 : d.getD 0 0 &&& 0x80 = 0
  · rw [if_pos h2] at hp
    exact Option.noConfusion hp
  rw [if_neg h2] at hp
  by_cases h3 : d.length < 1 + 4
  · rw [if_pos h3] at hp
    exact Option.noConfusion hp
  rw [if_neg h3] at hp
  by_cases h4 : d.length < 5 + 1
  · rw [if_pos h4] at hp
    exact Option.noConfusion hp
  rw [if_neg h4] at hp
  by_cases h5 : d.length < 6 + d.getD 5 0
  · rw [if_pos h5] at hp
    exact Option.noConfusion hp
  rw [if_neg h5] at hp
  by_cases h6 : d.length < 6 + d.getD 5 0 + 1
  · rw [if_pos h6] at hp
    exact Option.noConfusion hp
  rw [if_neg h6] at hp
  by_cases h7 : d.length < 7 + d.getD 5 0 + d.getD (6 + d.getD 5 0) 0
  · rw [if_pos h7] at hp
    exact Option.noConfusion hp
  rw [if_neg h7] at hp
  by_cases h8 : (d.getD 0 0 &&& 0x30) >>> 4 = 0
  · rw [if_pos h8] at hp
    by_cases h9 : d.length < 7 + d.getD 5 0 + d.getD (6 + d.getD 5 0) 0 + 1
    · rw [if_pos h9] at hp
      exact Option.noConfusion hp
    rw [if_neg h9] at hp
    by_cases h10 : d.length <
        7 + d.getD 5 0 + d.getD (6 + d.getD 5 0) 0 +
          (decode_varint (d.drop (7 + d.getD 5 0 + d.getD (6 + d.getD 5 0) 0))).2 +
          (decode_varint (d.drop (7 + d.getD 5 0 + d.getD (6 + d.getD 5 0) 0))).1
    · rw [if_pos h10] at hp
      exact Option.noConfusion hp
    rw [if_neg h10] at hp
    injection hp with hh
    subst hh
    dsimp only
    rw [length_sliceAt d 6 (d.getD 5 0) (by omega),
      length_sliceAt d (7 + d.getD 5 0) (d.getD (6 + d.getD 5 0) 0) (by omega),
      length_sliceAt d
        (7 + d.getD 5 0 + d.getD (6 + d.getD 5 0) 0 +
          (decode_varint (d.drop (7 + d.getD 5 0 + d.getD (6 + d.getD 5 0) 0))).2)
        (decode_varint (d.drop (7 + d.getD 5 0 + d.getD (6 + d.getD 5 0) 0))).1
        (by omega)]
    omega
  · rw [if_neg h8] at hp
    injection hp with hh
    subst hh
    dsimp only
    rw [length_sliceAt d 6 (d.getD 5 0) (by omega),
      length_sliceAt d (7 + d.getD 5 0) (d.getD (6 + d.getD 5 0) 0) (by omega)]
    simp only [List.length_nil]
    omega

/-- Witness for `parse_advertised_lengths_bound` on a concrete 8-byte Initial
packet. -/
theorem parse_advertised_lengths_bound_witness :
    parse_quic_packet dgramInit = some ⟨1, [], [], 0, []⟩ ∧
    7 + ([] : List Nat).length + ([] : List Nat).length + ([] : List Nat).length ≤
      dgramInit.length :=
  ⟨by decide, parse_advertised_lengths_bound dgramInit ⟨1, [], [], 0, []⟩ (by decide)⟩

/-! ## Claim C4 -/

/-- Structure of `parse_quic_packet` on a well-formed Initial long-header
prefix followed by an arbitrary token field `rest`: the token-length varint is
decoded from `rest`, and the remaining bounds checks compare against
`rest.length`.  In particular a truncated varint (`decode_varint rest =
(0, 0)` with `rest ≠ []`) passes the checks and yields an empty token. -/
theorem parse_initial_structure (b0 : Nat) (v4 dcid scid rest : List Nat)
    (hb : ¬b0 &&& 0x80 = 0) (ht : (b0 &&& 0x30) >>> 4 = 0) (hv : v4.length = 4) :
    parse_quic_packet (initialPacketBytes b0 v4 dcid scid rest) =
      (if rest.length < 1 then none
       else if rest.length < (decode_varint rest).2 + (decode_varint rest).1 then none
       else
         some ⟨be32At (initialPacketBytes b0 v4 dcid scid rest) 1,
           dcid, scid, 0, sliceAt rest (decode_varint rest).2 (decode_varint rest).1⟩) := by
  have hlen : (initialPacketBytes b0 v4 dcid scid rest).length =
      7 + dcid.length + scid.length + rest.length := by
    simp only [initialPacketBytes, List.length_cons, List.length_append, hv]
    omega
  have g0 : (initialPacketBytes b0 v4 dcid scid rest).getD 0 0 = b0 := rfl
  have e5 : (initialPacketBytes b0 v4 dcid scid rest).drop 5 =
      dcid.length :: (dcid ++ (scid.length :: (scid ++ rest))) := by
    rw [show (initialPacketBytes b0 v4 dcid scid rest).drop 5 =
        (v4 ++ (dcid.length :: (dcid ++ (scid.length :: (scid ++ rest))))).drop 4 from rfl,
      ← hv, List.drop_left]
  have e6 : (initialPacketBytes b0 v4 dcid scid rest).drop 6 =
      dcid ++ (scid.length :: (scid ++ rest)) := by
    have h61 : (initialPacketBytes b0 v4 dcid scid rest).drop 6 =
        ((initialPacketBytes b0 v4 dcid scid rest).drop 5).drop 1 := by
      rw [List.drop_drop]
    rw [h61, e5]
    rfl
  have e6L : (initialPacketBytes b0 v4 dcid scid rest).drop (6 + dcid.length) =
      scid.length :: (scid ++ rest) := by
    have h6L : (initialPacketBytes b0 v4 dcid scid rest).drop (6 + dcid.length) =
        ((initialPacketBytes b0 v4 dcid scid rest).drop 6).drop dcid.length := by
      rw [List.drop_drop, Nat.add_comm]
    rw [h6L, e6, List.drop_left]
  have e7 : (initialPacketBytes b0 v4 dcid scid rest).drop (7 + dcid.length) =
      scid ++ rest := by
    have h7 : (initialPacketBytes b0 v4 dcid scid rest).drop (7 + dcid.length) =
        ((initialPacketBytes b0 v4 dcid scid rest).drop (6 + dcid.length)).drop 1 := by
      rw [List.drop_drop]
      congr 1
      omega
    rw [h7, e6L]
    rfl
  have e7L : (initialPacketBytes b0 v4 dcid scid rest).drop
      (7 + dcid.length + scid.length) = rest := by
    have h7L : (initialPacketBytes b0 v4 dcid scid rest).drop
        (7 + dcid.length + scid.length) =
        ((initialPacketBytes b0 v4 dcid scid rest).drop (7 + dcid.length)).drop
          scid.length := by
      rw [List.drop_drop]
    rw [h7L, e7, List.drop_left]
  have g5 : (initialPacketBytes b0 v4 dcid scid rest).getD 5 0 = dcid.length := by
    have hg := getD_drop (initialPacketBytes b0 v4 dcid scid rest) 5 0
    rw [e5] at hg
    simpa using hg.symm
  have g6L : (initialPacketBytes b0 v4 dcid scid rest).getD (6 + dcid.length) 0 =
      scid.length := by
    have hg := getD_drop (initialPacketBytes b0 v4 dcid scid rest) (6 + dcid.length) 0
    rw [e6L] at hg
    simpa using hg.symm
  have s6 : sliceAt (initialPacketBytes b0 v4 dcid scid rest) 6 dcid.length = dcid := by
    unfold sliceAt
    rw [e6]
    exact List.take_left dcid _
  have s7 : sliceAt (initialPacketBytes b0 v4 dcid scid rest) (7 + dcid.length)
      scid.length = scid := by
    unfold sliceAt
    rw [e7]
    exact List.take_left scid _
  have sTok : ∀ w n : Nat,
      sliceAt (initialPacketBytes b0 v4 dcid scid rest)
        (7 + dcid.length + scid.length + w) n = sliceAt rest w n := by
    intro w n
    unfold sliceAt
    have hw : (initialPacketBytes b0 v4 dcid scid rest).drop
        (7 + dcid.length + scid.length + w) =
        ((initialPacketBytes b0 v4 dcid scid rest).drop
          (7 + dcid.length + scid.length)).drop w := by
      rw [List.drop_drop]
    rw [hw, e7L]
  unfold parse_quic_packet
  rw [g0, g5, g6L, e7L, hlen, s6, s7, sTok, ht]
  rw [if_neg (by omega), if_neg hb, if_neg (by omega), if_neg (by omega),
    if_neg (by omega), if_neg (by omega), if_neg (by omega), if_pos rfl]
  by_cases hr1 : rest.length < 1
  · rw [if_pos (by omega), if_pos hr1]
  · rw [if_neg (by omega), if_neg hr1]
    by_cases hr2 : rest.length < (decode_varint rest).2 + (decode_varint rest).1
    · rw [if_pos (by omega), if_pos hr2]
    · rw [if_neg (by omega), if_neg hr2]

/-- Claim C4 counterexample: the claim says that an Initial packet whose
token-length varint is truncated makes the parser return `None`.  Concretely
`[0x80, 0, 0, 0, 1, 0, 0, 0x40]` is an Initial packet whose token-length
varint `0x40` advertises width 2 with only 1 byte remaining — a truncated
read — yet the parser returns a header (with an empty token) instead of
`None`, because `_decode_varint` signals truncation as `(0, 0)`. -/
theorem parse_truncation_counterexample :
    decode_varint [0x40] = (0, 0) ∧
    parse_quic_packet [0x80, 0, 0, 0, 1, 0, 0, 0x40] = some ⟨1, [], [], 0, []⟩ := by
  decide

/-- Claim C4 (amended): for a well-formed Initial long-header prefix, a read of
the token-length byte or of the token bytes that would exceed the buffer
returns `None`; but when the token-length varint itself is truncated (fewer
bytes remain than the width selected by its top two bits, so `_decode_varint`
returns `(0, 0)`), the parser returns a header with an empty token instead of
`None`. -/
theorem parse_token_truncation_amended (b0 : Nat) (v4 dcid scid rest : List Nat)
    (hb : ¬b0 &&& 0x80 = 0) (ht : (b0 &&& 0x30) >>> 4 = 0) (hv : v4.length = 4) :
    (rest = [] →
      parse_quic_packet (initialPacketBytes b0 v4 dcid scid rest) = none) ∧
    (∀ n w : Nat, decode_varint rest = (n, w) → 0 < w → rest.length < w + n →
      parse_quic_packet (initialPacketBytes b0 v4 dcid scid rest) = none) ∧
    (decode_varint rest = (0, 0) → rest ≠ [] →
      parse_quic_packet (initialPacketBytes b0 v4 dcid scid rest) =
        some ⟨be32At (initialPacketBytes b0 v4 dcid scid rest) 1, dcid, scid, 0, []⟩) := by
  have hps := parse_initial_structure b0 v4 dcid scid rest hb ht hv
  refine ⟨?_, ?_, ?_⟩
  · intro hr
    subst hr
    rw [hps]
    rfl
  · intro n w hd hw hlt
    have hr1 : ¬rest.length < 1 := by
      intro hcon
      have hre : rest = [] := List.eq_nil_of_length_eq_zero (by omega)
      subst hre
      have h00 : ((0, 0) : Nat × Nat) = (n, w) := hd
      injection h00 with h01 h02
      omega
    rw [hps, hd, if_neg hr1, if_pos (by simpa using hlt)]
  · intro hd hne
    have hr1 : ¬rest.length < 1 := by
      have := List.length_pos.mpr hne
      omega
    rw [hps, hd, if_neg hr1, if_neg (by simp)]
    simp [sliceAt]

/-- Witness for `parse_token_truncation_amended` at a concrete Initial prefix
(first byte `0x80`, version bytes `[0,0,0,1]`, dcid `[7]`, scid `[9]`). -/
theorem parse_token_truncation_amended_witness :
    ¬(0x80 : Nat) &&& 0x80 = 0 ∧ ((0x80 : Nat) &&& 0x30) >>> 4 = 0 ∧
    ([0, 0, 0, 1] : List Nat).length = 4 ∧
    (((0x40 :: []) = ([] : List Nat) →
      parse_quic_packet (initialPacketBytes 0x80 [0, 0, 0, 1] [7] [9] (0x40 :: [])) =
        none) ∧
    (∀ n w : Nat, decode_varint (0x40 :: []) = (n, w) → 0 < w →
      (0x40 :: []).length < w + n →
      parse_quic_packet (initialPacketBytes 0x80 [0, 0, 0, 1] [7] [9] (0x40 :: [])) =
        none) ∧
    (decode_varint (0x40 :: []) = (0, 0) → (0x40 :: []) ≠ ([] : List Nat) →
      parse_quic_packet (initialPacketBytes 0x80 [0, 0, 0, 1] [7] [9] (0x40 :: [])) =
        some ⟨be32At (initialPacketBytes 0x80 [0, 0, 0, 1] [7] [9] (0x40 :: [])) 1,
          [7], [9], 0, []⟩)) :=
  ⟨by decide, by decide, by decide,
    parse_token_truncation_amended 0x80 [0, 0, 0, 1] [7] [9] (0x40 :: []) (by decide)
      (by decide) (by decide)⟩

/-! ## Claim C5 -/

theorem vnPacket_firstByte (scid sup : List Nat) :
    (vnPacket scid sup).getD 0 0 = 0x80 ||| 0x70 := rfl

theorem vnPacket_version (scid sup : List Nat) :
    sliceAt (vnPacket scid sup) 1 4 = [0, 0, 0, 0] := rfl

theorem vnPacket_dcidLen (scid sup : List Nat) :
    (vnPacket scid sup).getD 5 0 = scid.length := rfl

theorem vnPacket_drop6 (scid sup : List Nat) :
    (vnPacket scid sup).drop 6 = scid ++ 0 :: (sortedVersions sup).flatMap be32 := rfl

theorem vnPacket_dcid (scid sup : List Nat) :
    sliceAt (vnPacket scid sup) 6 scid.length = scid := by
  unfold sliceAt
  rw [vnPacket_drop6]
  exact List.take_left scid _

theorem vnPacket_scidByte (scid sup : List Nat) :
    (vnPacket scid sup).getD (6 + scid.length) 0 = 0 := by
  have hg := getD_drop (vnPacket scid sup) 6 scid.length
  rw [vnPacket_drop6] at hg
  rw [← hg]
  exact getD_append_len scid 0 _

theorem vnPacket_versions_tail (scid sup : List Nat) :
    (vnPacket scid sup).drop (7 + scid.length) = (sortedVersions sup).flatMap be32 := by
  have e1 : (vnPacket scid sup).drop (7 + scid.length) =
      (((vnPacket scid sup).drop 6).drop scid.length).drop 1 := by
    rw [List.drop_drop, List.drop_drop]
    congr 1
    omega
  rw [e1, vnPacket_drop6, List.drop_left, List.drop_succ_cons, List.drop_zero]

theorem sortedVersions_sorted (l : List Nat) :
    List.Sorted (· < ·) (sortedVersions l) := by
  have hs : List.Sorted (· ≤ ·) (sortedVersions l) := List.sorted_insertionSort _ _
  have hn : (sortedVersions l).Nodup :=
    ((List.perm_insertionSort _ _).nodup_iff).mpr l.nodup_dedup
  exact hs.lt_of_le hn

theorem sortedVersions_mem (l : List Nat) (v : Nat) :
    v ∈ sortedVersions l ↔ v ∈ l := by
  unfold sortedVersions
  rw [(List.perm_insertionSort _ _).mem_iff, List.mem_dedup]

theorem processPacket_parsed (cfg : ListenerConfig) (c : CoreState) (data : List Nat)
    (addr : Addr) (o : PacketOracle) (pi : QUICPacketInfo)
    (hp : parse_quic_packet data = some pi) :
    processPacket cfg c data addr o = processParsed cfg (bumpStats c data.length) pi addr o := by
  unfold processPacket
  simp only [hp]

/-- Claim C5: for every parsed packet with an unsupported non-zero version, the
step sends exactly one datagram, `vnPacket` of the client's SCID and the
supported set; the packet starts with the byte `0x80 ||| 0x70`, four zero
version bytes, the echoed-DCID length byte followed by the echoed DCID (the
client's SCID), one `0x00` byte (empty SCID), and then each supported version
as a 4-byte big-endian integer in strictly ascending order; the
`version_negotiations` counter is incremented once, and no other state is
retained — the result depends only on the counters and the triggering SCID, so
a repeat offender gets a repeat response. -/
theorem version_negotiation_layout (cfg : ListenerConfig) (c : CoreState) (data : List Nat)
    (addr : Addr) (o : PacketOracle) (pi : QUICPacketInfo)
    (hp : parse_quic_packet data = some pi) (hv : pi.version ≠ 0)
    (hns : pi.version ∉ cfg.supportedVersions) :
    processPacket cfg c data addr o =
      ({ bumpStats c data.length with statsVN := c.statsVN + 1 },
        [vnPacket pi.source_cid cfg.supportedVersions]) ∧
    (processPacket cfg c data addr o).1.addrToCid = c.addrToCid ∧
    (processPacket cfg c data addr o).1.cidToAddr = c.cidToAddr ∧
    (processPacket cfg c data addr o).1.pending = c.pending ∧
    (processPacket cfg c data addr o).1.connections = c.connections ∧
    (vnPacket pi.source_cid cfg.supportedVersions).getD 0 0 = (0x80 ||| 0x70) ∧
    sliceAt (vnPacket pi.source_cid cfg.supportedVersions) 1 4 = [0, 0, 0, 0] ∧
    (vnPacket pi.source_cid cfg.supportedVersions).getD 5 0 = pi.source_cid.length ∧
    sliceAt (vnPacket pi.source_cid cfg.supportedVersions) 6 pi.source_cid.length =
      pi.source_cid ∧
    (vnPacket pi.source_cid cfg.supportedVersions).getD (6 + pi.source_cid.length) 0 = 0 ∧
    (vnPacket pi.source_cid cfg.supportedVersions).drop (7 + pi.source_cid.length) =
      (sortedVersions cfg.supportedVersions).flatMap be32 ∧
    List.Sorted (· < ·) (sortedVersions cfg.supportedVersions) ∧
    (∀ v, v ∈ sortedVersions cfg.supportedVersions ↔ v ∈ cfg.supportedVersions) := by
  have h1 : processPacket cfg c data addr o =
      sendVersionNegotiation cfg (bumpStats c data.length) pi.source_cid := by
    rw [processPacket_parsed cfg c data addr o pi hp]
    unfold processParsed
    rw [if_neg hv, if_neg hns]
  refine ⟨by rw [h1]; rfl, by rw [h1]; rfl, by rw [h1]; rfl, by rw [h1]; rfl,
    by rw [h1]; rfl, vnPacket_firstByte _ _, vnPacket_version _ _, vnPacket_dcidLen _ _,
    vnPacket_dcid _ _, vnPacket_scidByte _ _, vnPacket_versions_tail _ _,
    sortedVersions_sorted _, sortedVersions_mem _⟩

/-- Witness for `version_negotiation_layout` on a concrete Initial datagram
with version 2 (not in the supported set `[1]`) and SCID `[9, 9, 9]`. -/
theorem version_negotiation_layout_witness :
    parse_quic_packet dgramV2 = some ⟨2, [], [9, 9, 9], 0, []⟩ ∧
    (2 : Nat) ≠ 0 ∧ (2 : Nat) ∉ cfg0.supportedVersions ∧
    (processPacket cfg0 initCore dgramV2 addr0 oracle0 =
        ({ bumpStats initCore dgramV2.length with statsVN := initCore.statsVN + 1 },
          [vnPacket [9, 9, 9] cfg0.supportedVersions]) ∧
      (processPacket cfg0 initCore dgramV2 addr0 oracle0).1.addrToCid =
        initCore.addrToCid ∧
      (processPacket cfg0 initCore dgramV2 addr0 oracle0).1.cidToAddr =
        initCore.cidToAddr ∧
      (processPacket cfg0 initCore dgramV2 addr0 oracle0).1.pending = initCore.pending ∧
      (processPacket cfg0 initCore dgramV2 addr0 oracle0).1.connections =
        initCore.connections ∧
      (vnPacket [9, 9, 9] cfg0.supportedVersions).getD 0 0 = (0x80 ||| 0x70) ∧
      sliceAt (vnPacket [9, 9, 9] cfg0.supportedVersions) 1 4 = [0, 0, 0, 0] ∧
      (vnPacket [9, 9, 9] cfg0.supportedVersions).getD 5 0 =
        ([9, 9, 9] : List Nat).length ∧
      sliceAt (vnPacket [9, 9, 9] cfg0.supportedVersions) 6
        ([9, 9, 9] : List Nat).length = [9, 9, 9] ∧
      (vnPacket [9, 9, 9] cfg0.supportedVersions).getD
        (6 + ([9, 9, 9] : List Nat).length) 0 = 0 ∧
      (vnPacket [9, 9, 9] cfg0.supportedVersions).drop
        (7 + ([9, 9, 9] : List Nat).length) =
        (sortedVersions cfg0.supportedVersions).flatMap be32 ∧
      List.Sorted (· < ·) (sortedVersions cfg0.supportedVersions) ∧
      (∀ v, v ∈ sortedVersions cfg0.supportedVersions ↔ v ∈ cfg0.supportedVersions)) :=
  ⟨by decide, by decide, by decide,
    version_negotiation_layout cfg0 initCore dgramV2 addr0 oracle0 ⟨2, [], [9, 9, 9], 0, []⟩
      (by decide) (by decide) (by decide)⟩

/-! ## Claim C3 -/

/-- Claim C3: routing tie-break order.  For every parsed long-header packet
with a supported non-zero version, dispatch proceeds in exactly this order:
(1) a DCID in the established map routes there unconditionally; (2) else a
DCID in the pending map routes there; (3) else an `_addr_to_cid` entry for the
peer address routes to the session behind that mapping (which, at any state
satisfying the routing invariant, always exists — pending checked before
established); (4) else an Initial packet (packet_type 0) goes to
`_handle_new_connection`, which creates the pending session once the version's
configuration is found and construction succeeds; (5) and any other packet is
dropped silently: the state changes only by the two per-packet counters. -/
theorem routing_tiebreak (cfg : ListenerConfig) (c : CoreState) (data : List Nat)
    (addr : Addr) (o : PacketOracle) (pi : QUICPacketInfo)
    (hInv : InvAt c)
    (hp : parse_quic_packet data = some pi)
    (hv : pi.version ≠ 0)
    (hs : pi.version ∈ cfg.supportedVersions) :
    ((alookup c.connections pi.destination_cid).isSome = true →
      processPacket cfg c data addr o =
        (routeToConnection (bumpStats c data.length) addr o.routeRaises, [])) ∧
    (alookup c.connections pi.destination_cid = none →
      (alookup c.pending pi.destination_cid).isSome = true →
      processPacket cfg c data addr o =
        (handlePendingConnection cfg (bumpStats c data.length) addr pi.destination_cid
          o.engine, [])) ∧
    (alookup c.connections pi.destination_cid = none →
      alookup c.pending pi.destination_cid = none →
      ∀ ecid, alookup c.addrToCid addr = some ecid →
        ((alookup c.pending ecid).isSome = true ∧
          processPacket cfg c data addr o =
            (handlePendingConnection cfg (bumpStats c data.length) addr ecid o.engine,
              [])) ∨
        (alookup c.pending ecid = none ∧ (alookup c.connections ecid).isSome = true ∧
          processPacket cfg c data addr o =
            (routeToConnection (bumpStats c data.length) addr o.routeRaises, []))) ∧
    (alookup c.connections pi.destination_cid = none →
      alookup c.pending pi.destination_cid = none →
      alookup c.addrToCid addr = none → pi.packet_type = 0 →
      processPacket cfg c data addr o =
        handleNewConnection cfg (bumpStats c data.length) addr pi.source_cid o.newConn ∧
      (o.newConn.configFound = true → o.newConn.setupRaises = false →
        o.newConn.engine = ⟨false, [], false⟩ →
        (alookup (processPacket cfg c data addr o).1.pending o.newConn.newCid).isSome =
          true)) ∧
    (alookup c.connections pi.destination_cid = none →
      alookup c.pending pi.destination_cid = none →
      alookup c.addrToCid addr = none → pi.packet_type ≠ 0 →
      processPacket cfg c data addr o = (bumpStats c data.length, [])) := by
  have base := processPacket_parsed cfg c data addr o pi hp
  have hbc : (bumpStats c data.length).connections = c.connections := rfl
  have hbp : (bumpStats c data.length).pending = c.pending := rfl
  have hba : (bumpStats c data.length).addrToCid = c.addrToCid := rfl
  refine ⟨?_, ?_, ?_, ?_, ?_⟩
  · intro hest
    rw [base]
    unfold processParsed
    simp only [hbc, hbp, hba]
    rw [if_neg hv, if_pos hs, if_pos hest]
  · intro hest hpend
    have hestF : ¬(alookup c.connections pi.destination_cid).isSome = true := by
      simp [hest]
    rw [base]
    unfold processParsed
    simp only [hbc, hbp, hba]
    rw [if_neg hv, if_pos hs, if_neg hestF, if_pos hpend]
  · intro hest hpend ecid helookup
    have hestF : ¬(alookup c.connections pi.destination_cid).isSome = true := by
      simp [hest]
    have hpendF : ¬(alookup c.pending pi.destination_cid).isSome = true := by
      simp [hpend]
    have hstep : processPacket cfg c data addr o =
        processByAddr cfg (bumpStats c data.length) pi addr ecid o := by
      rw [base]
      unfold processParsed
      simp only [hbc, hbp, hba]
      rw [if_neg hv, if_pos hs, if_neg hestF, if_neg hpendF]
      simp only [helookup]
    by_cases hpe : (alookup c.pending ecid).isSome = true
    · left
      refine ⟨hpe, ?_⟩
      rw [hstep]
      unfold processByAddr
      simp only [hbc, hbp, hba]
      rw [if_pos hpe]
    · right
      have hpn : alookup c.pending ecid = none := by
        cases hlk : alookup c.pending ecid with
        | none => rfl
        | some u => rw [hlk] at hpe; simp at hpe
      have hmem := alookup_eq_some_mem helookup
      have hsess := hInv.2.2.1 (addr, ecid) hmem
      simp only [sessionFor, hpn, Option.isSome_none, Bool.false_or] at hsess
      refine ⟨hpn, hsess, ?_⟩
      rw [hstep]
      unfold processByAddr
      simp only [hbc, hbp, hba]
      rw [if_neg hpe, if_pos hsess]
  · intro hest hpend haddr hinit
    have hestF : ¬(alookup c.connections pi.destination_cid).isSome = true := by
      simp [hest]
    have hpendF : ¬(alookup c.pending pi.destination_cid).isSome = true := by
      simp [hpend]
    have heq : processPacket cfg c data addr o =
        handleNewConnection cfg (bumpStats c data.length) addr pi.source_cid o.newConn := by
      rw [base]
      unfold processParsed
      simp only [hbc, hbp, hba]
      rw [if_neg hv, if_pos hs, if_neg hestF, if_neg hpendF]
      simp only [haddr]
      rw [if_pos hinit]
    refine ⟨heq, ?_⟩
    intro hcf hsr heng
    rw [heq]
    simp [handleNewConnection, handleNewEngine, hcf, hsr, heng, processQuicEvents,
      hasTerminated, alookup_ainsert_self]
  · intro hest hpend haddr hinitF
    have hestF : ¬(alookup c.connections pi.destination_cid).isSome = true := by
      simp [hest]
    have hpendF : ¬(alookup c.pending pi.destination_cid).isSome = true := by
      simp [hpend]
    rw [base]
    unfold processParsed
    simp only [hbc, hbp, hba]
    rw [if_neg hv, if_pos hs, if_neg hestF, if_neg hpendF]
    simp only [haddr]
    rw [if_neg hinitF]

/-- Witness for `routing_tiebreak` at the initial state and a concrete Initial
datagram. -/
theorem routing_tiebreak_witness :
    InvAt initCore ∧ parse_quic_packet dgramInit = some ⟨1, [], [], 0, []⟩ ∧
    (1 : Nat) ≠ 0 ∧ (1 : Nat) ∈ cfg0.supportedVersions ∧
    (((alookup initCore.connections
          (QUICPacketInfo.mk 1 [] [] 0 []).destination_cid).isSome = true →
      processPacket cfg0 initCore dgramInit addr0 oracle0 =
        (routeToConnection (bumpStats initCore dgramInit.length) addr0
          oracle0.routeRaises, [])) ∧
    (alookup initCore.connections (QUICPacketInfo.mk 1 [] [] 0 []).destination_cid =
        none →
      (alookup initCore.pending
          (QUICPacketInfo.mk 1 [] [] 0 []).destination_cid).isSome = true →
      processPacket cfg0 initCore dgramInit addr0 oracle0 =
        (handlePendingConnection cfg0 (bumpStats initCore dgramInit.length) addr0
          (QUICPacketInfo.mk 1 [] [] 0 []).destination_cid oracle0.engine, [])) ∧
    (alookup initCore.connections (QUICPacketInfo.mk 1 [] [] 0 []).destination_cid =
        none →
      alookup initCore.pending (QUICPacketInfo.mk 1 [] [] 0 []).destination_cid = none →
      ∀ ecid, alookup initCore.addrToCid addr0 = some ecid →
        ((alookup initCore.pending ecid).isSome = true ∧
          processPacket cfg0 initCore dgramInit addr0 oracle0 =
            (handlePendingConnection cfg0 (bumpStats initCore dgramInit.length) addr0
              ecid oracle0.engine, [])) ∨
        (alookup initCore.pending ecid = none ∧
          (alookup initCore.connections ecid).isSome = true ∧
          processPacket cfg0 initCore dgramInit addr0 oracle0 =
            (routeToConnection (bumpStats initCore dgramInit.length) addr0
              oracle0.routeRaises, []))) ∧
    (alookup initCore.connections (QUICPacketInfo.mk 1 [] [] 0 []).destination_cid =
        none →
      alookup initCore.pending (QUICPacketInfo.mk 1 [] [] 0 []).destination_cid = none →
      alookup initCore.addrToCid addr0 = none →
      (QUICPacketInfo.mk 1 [] [] 0 []).packet_type = 0 →
      processPacket cfg0 initCore dgramInit addr0 oracle0 =
        handleNewConnection cfg0 (bumpStats initCore dgramInit.length) addr0
          (QUICPacketInfo.mk 1 [] [] 0 []).source_cid oracle0.newConn ∧
      (oracle0.newConn.configFound = true → oracle0.newConn.setupRaises = false →
        oracle0.newConn.engine = ⟨false, [], false⟩ →
        (alookup (processPacket cfg0 initCore dgramInit addr0 oracle0).1.pending
            oracle0.newConn.newCid).isSome = true)) ∧
    (alookup initCore.connections (QUICPacketInfo.mk 1 [] [] 0 []).destination_cid =
        none →
      alookup initCore.pending (QUICPacketInfo.mk 1 [] [] 0 []).destination_cid = none →
      alookup initCore.addrToCid addr0 = none →
      (QUICPacketInfo.mk 1 [] [] 0 []).packet_type ≠ 0 →
      processPacket cfg0 initCore dgramInit addr0 oracle0 =
        (bumpStats initCore dgramInit.length, []))) :=
  ⟨InvAt_initCore, by decide, by decide, by decide,
    routing_tiebreak cfg0 initCore dgramInit addr0 oracle0 ⟨1, [], [], 0, []⟩
      InvAt_initCore (by decide) (by decide) (by decide)⟩
